import Mathlib

/-!
Verification of `filter_precommit.py`: a tool that filters a captured
pre-commit log so that only findings touching staged (added) lines are shown.

The Python source is shallowly embedded below.  Lines of text are modelled
as `List Char` (the script reads files with `splitlines()`, so a line never
contains a newline character).  Python's `Dict[str, Set[int]]` is modelled
as an association list with first-key-wins lookup and replace-on-assignment
semantics; only key membership and element membership of the sets are ever
observed, so a `List Nat` per key is a faithful model of a Python `set`.
Python exceptions that escape a function (the `ValueError` that
`str.index` raises in `filter_logs`) are modelled with `Except Unit`.
-/

namespace FilterPrecommit

/-- A single line of text, as produced by Python's `splitlines`. -/
abbrev Line := List Char

/-- Convert a string literal to the line it denotes. -/
def str (s : String) : Line := s.toList

/-- Python `startswith`. -/
def startsWith (p l : Line) : Bool := List.isPrefixOf p l

/-- The ASCII whitespace characters recognised by Python's `str.strip()`
and by the `\s` class of the log regex (restricted to ASCII, which is all
that can occur in the tool's inputs). -/
def isPySpace (c : Char) : Bool :=
  c = ' ' || c = '\t' || c = '\n' || c = '\x0d' || c = '\x0b' || c = '\x0c'

/-- Python `str.strip()`: drop whitespace from both ends. -/
def strip (l : Line) : Line :=
  ((l.dropWhile isPySpace).reverse.dropWhile isPySpace).reverse

/-- Numeric value of a decimal digit character. -/
def digitVal (c : Char) : Nat := c.toNat - 48

/-- Split off the maximal leading run of decimal digits (the behaviour of a
greedy `\d+` in a regex). -/
def takeDigits : Line → Line × Line
  | [] => ([], [])
  | c :: r =>
    if c.isDigit then
      let p := takeDigits r
      (c :: p.1, p.2)
    else ([], c :: r)

/-- Python `int` on a nonempty string of decimal digits. -/
def natOfDigits (ds : Line) : Nat := ds.foldl (fun n c => 10 * n + digitVal c) 0

/-- Expect a literal, returning the rest of the line. -/
def expectLit (lit l : Line) : Option Line :=
  if startsWith lit l then some (l.drop lit.length) else none

/-- Expect a nonempty digit run (greedy `\d+`), returning its value and the rest. -/
def expectDigits (l : Line) : Option (Nat × Line) :=
  let p := takeDigits l
  if p.1.isEmpty then none else some (natOfDigits p.1, p.2)

/-- Evaluation of `re.match(r"@@ -\d+,\d+ \+(\d+),\d+ @@", line)`, returning the captured
new-file start line.  `re.match` anchors at the start only, so trailing text
is ignored.  Each greedy `\d+` is followed by a non-digit literal, so
backtracking never shortens the digit runs and the maximal-run parse below
is exactly the regex's behaviour. -/
def hunkNewStart (l : Line) : Option Nat := do
  let r1 ← expectLit (str "@@ -") l
  let (_, r2) ← expectDigits r1
  let r3 ← expectLit (str ",") r2
  let (_, r4) ← expectDigits r3
  let r5 ← expectLit (str " +") r4
  let (c, r6) ← expectDigits r5
  let r7 ← expectLit (str ",") r6
  let (_, r8) ← expectDigits r7
  let _ ← expectLit (str " @@") r8
  pure c

/-- The model of Python's `Dict[str, Set[int]]`: association list, unique
keys maintained by `clSet`. -/
abbrev ChangedLines := List (Line × List Nat)

/-- Python dict assignment `m[k] = v`: replace the entry if the key is
present, otherwise append it. -/
def clSet (m : ChangedLines) (k : Line) (v : List Nat) : ChangedLines :=
  match m with
  | [] => [(k, v)]
  | (k₀, v₀) :: t => if k₀ = k then (k, v) :: t else (k₀, v₀) :: clSet t k v

/-- Python `m[k].add(n)`.  In `get_changed_lines` the key is always present
when this is called (the `+++ b/` branch inserted it); on a missing key the
model leaves the map unchanged. -/
def clAdd (m : ChangedLines) (k : Line) (n : Nat) : ChangedLines :=
  match m with
  | [] => []
  | (k₀, v₀) :: t => if k₀ = k then (k₀, v₀ ++ [n]) :: t else (k₀, v₀) :: clAdd t k n

/-- Dict lookup `m[k]`. -/
def clLookup (m : ChangedLines) (k : Line) : Option (List Nat) :=
  match m with
  | [] => none
  | (k₀, v₀) :: t => if k₀ = k then some v₀ else clLookup t k

/-- Python `k in m` for a dict. -/
def clHasKey (m : ChangedLines) (k : Line) : Bool := (clLookup m k).isSome

/-- The scan state of `get_changed_lines`: the dict built so far, the
current file (`[]` models both Python's initial `None` and an empty path,
which are equally falsy), and the running new-file line counter. -/
structure DiffState where
  changed : ChangedLines
  currentFile : Line
  currentLine : Nat
deriving DecidableEq

/-- One iteration of the `for line in diff_output.splitlines()` loop of
`get_changed_lines`, branch for branch:
* `+++ b/` header: strip the marker, strip whitespace, reset the file's set
  and the line counter;
* `@@` line: parse the hunk header; on success, and if a file header has
  been seen (`current_file` truthy), set the counter to the new-file start;
* added line (`+` but not `+++`, file truthy): record the counter, advance;
* context or deletion line (leading space or `-`): advance the counter. -/
def diffStep (s : DiffState) (l : Line) : DiffState :=
  if startsWith (str "+++ b/") l then
    let f := strip (l.drop 6)
    { changed := clSet s.changed f [], currentFile := f, currentLine := 0 }
  else if startsWith (str "@@") l then
    match hunkNewStart l with
    | some c => if s.currentFile.isEmpty then s else { s with currentLine := c }
    | none => s
  else if startsWith (str "+") l && !s.currentFile.isEmpty && !startsWith (str "+++") l then
    { s with changed := clAdd s.changed s.currentFile s.currentLine,
             currentLine := s.currentLine + 1 }
  else if startsWith (str " ") l || startsWith (str "-") l then
    { s with currentLine := s.currentLine + 1 }
  else s

/-- The function `get_changed_lines`, applied to the staged diff text
already split into lines (`diff_output.splitlines()`). -/
def get_changed_lines (diff : List Line) : ChangedLines :=
  (diff.foldl diffStep { changed := [], currentFile := [], currentLine := 0 }).changed

/-- Modelled from the spec: the reference extraction semantics of §3 and §9
("standard unified-diff line tracking"), against which `get_changed_lines`
is compared.  Identical to `diffStep` except that a deletion line (leading
`-`) does not advance the new-file line counter: deleted lines do not exist
in the new file, so only added and context lines consume new-file line
numbers.  Under this step function the number recorded for each `+` line is
that line's position in the new version of the file, i.e. the set built is
exactly the set of added lines of the new version. -/
def specDiffStep (s : DiffState) (l : Line) : DiffState :=
  if startsWith (str "+++ b/") l then
    let f := strip (l.drop 6)
    { changed := clSet s.changed f [], currentFile := f, currentLine := 0 }
  else if startsWith (str "@@") l then
    match hunkNewStart l with
    | some c => if s.currentFile.isEmpty then s else { s with currentLine := c }
    | none => s
  else if startsWith (str "+") l && !s.currentFile.isEmpty && !startsWith (str "+++") l then
    { s with changed := clAdd s.changed s.currentFile s.currentLine,
             currentLine := s.currentLine + 1 }
  else if startsWith (str " ") l then
    { s with currentLine := s.currentLine + 1 }
  else s

/-- Modelled from the spec: the per-file sets of line numbers added by the
diff in the new file versions (spec §3 invariant), computed with
`specDiffStep`. -/
def specAddedLines (diff : List Line) : ChangedLines :=
  (diff.foldl specDiffStep { changed := [], currentFile := [], currentLine := 0 }).changed

/-- First index at which `nd` occurs as a substring (Python `hay.index(nd)`
and, via `isSome`, the substring test `nd in hay`). -/
def findSub (nd : Line) : Line → Option Nat
  | [] => if nd.isEmpty then some 0 else none
  | c :: t =>
    if List.isPrefixOf nd (c :: t) then some 0
    else (findSub nd t).map (· + 1)

/-- Python `nd in hay` for strings: substring containment. -/
def containsSub (hay nd : Line) : Bool := (findSub nd hay).isSome

/-- Evaluation of `file_path[file_path.index("src/"):]`: `some` of the suffix starting at
the first occurrence of `src/`, or `none` when `src/` does not occur (in
which case the Python code raises `ValueError`). -/
def fromSrc (p : Line) : Option Line := (findSub (str "src/") p).map (p.drop ·)

/-- The match of `re.compile(r"^(.*?):(\d+):(?:\d+:)?\s*(.*)$")` against a
log line, returning the path group and the parsed line number.  With no
newline inside the line, `(?:\d+:)?\s*(.*)$` always matches the remainder,
so the regex succeeds exactly when some colon is followed by a nonempty
digit run and another colon; the non-greedy `(.*?)` picks the first such
colon, and the greedy `(\d+)` is the maximal digit run after it. -/
def matchStructured : Line → Option (Line × Nat)
  | [] => none
  | c :: rest =>
    if c = ':' then
      if (takeDigits rest).1.isEmpty then
        (matchStructured rest).map (fun pn => (c :: pn.1, pn.2))
      else
        match (takeDigits rest).2 with
        | ':' :: _ => some ([], natOfDigits (takeDigits rest).1)
        | _ => (matchStructured rest).map (fun pn => (c :: pn.1, pn.2))
    else (matchStructured rest).map (fun pn => (c :: pn.1, pn.2))

/-- The decision `filter_logs` takes for one log line: `Except.error ()`
models the uncaught `ValueError` from `file_path.index("src/")`;
`Except.ok b` means the line is kept iff `b`.
* Structured line: strip the path, truncate it at the first `src/`; keep
  iff the truncated path is a dict key and the line number is in its set.
* Unstructured line: keep iff some dict key occurs as a substring. -/
def lineVerdict (cl : ChangedLines) (l : Line) : Except Unit Bool :=
  match matchStructured l with
  | some (p, n) =>
    match fromSrc (strip p) with
    | some key => .ok (clHasKey cl key && ((clLookup cl key).getD []).contains n)
    | none => .error ()
  | none => .ok (cl.any (fun kv => containsSub l kv.1))

/-- The `for log in logs` loop of `filter_logs`: collect kept lines in
order; a raised `ValueError` aborts the whole call with no result. -/
def filterAux (cl : ChangedLines) : List Line → Except Unit (List Line)
  | [] => .ok []
  | l :: rest =>
    match lineVerdict cl l with
    | .error e => .error e
    | .ok true => (filterAux cl rest).map (fun out => l :: out)
    | .ok false => filterAux cl rest

/-- The function `filter_logs(logs, changed_lines)`: an empty dict
short-circuits to `[]`, otherwise the per-line loop runs. -/
def filter_logs (logs : List Line) (cl : ChangedLines) : Except Unit (List Line) :=
  if cl.isEmpty then .ok [] else filterAux cl logs

/-- The observable outcome of one run of `main`. -/
inductive MainOutcome where
  /-- the message "No staged files or changed lines to process." is printed
  to stderr and `sys.exit(0)` runs; the log file is never read and no
  filtered output is produced. -/
  | infoExitZero
  /-- the function `read_saved_logs` printed "Log file ... not found." and
  exited with status 1. -/
  | logFileMissing
  /-- the `ValueError` raised inside `filter_logs` propagated out of
  `main`; the interpreter exits with a nonzero status. -/
  | uncaughtError
  /-- the banner and the filtered lines were printed (or the "No logs
  found" message when the list is empty) and the process exits 0. -/
  | printedLogs (filtered : List Line)
deriving DecidableEq

/-- Process exit status for each outcome. -/
def MainOutcome.exitCode : MainOutcome → Nat
  | .infoExitZero => 0
  | .logFileMissing => 1
  | .uncaughtError => 1
  | .printedLogs _ => 0

/-- The filtered log lines a run prints, if any. -/
def MainOutcome.filteredOutput : MainOutcome → Option (List Line)
  | .printedLogs f => some f
  | _ => none

/-- The function `main`, as a function of the ambient inputs: the staged diff (split
into lines; no staged changes means `git diff --staged` prints nothing and
the list is empty) and the captured log file (`none` when the file does not
exist). -/
def main (diff : List Line) (logFile : Option (List Line)) : MainOutcome :=
  let cl := get_changed_lines diff
  if cl.isEmpty then .infoExitZero
  else
    match logFile with
    | none => .logFileMissing
    | some logs =>
      match filter_logs logs cl with
      | .error _ => .uncaughtError
      | .ok f => .printedLogs f

/-! ## Helper lemmas -/

/-- Mapping the identity over an `Except` result changes nothing. -/
theorem exceptMap_id (x : Except Unit (List Line)) : x.map (fun out => out) = x := by
  cases x <;> rfl

/-- On a line that does not start with `-`, the code's diff step and the
spec's diff step agree (they differ only in the deletion branch). -/
theorem diffStep_eq_specDiffStep (s : DiffState) (l : Line)
    (h : startsWith (str "-") l = false) : diffStep s l = specDiffStep s l := by
  simp only [diffStep, specDiffStep, h, Bool.or_false]

/-- Over a diff with no `-`-initial lines, the two scans compute the same
final state from any starting state. -/
theorem foldl_diffStep_eq_spec (diff : List Line)
    (h : ∀ l ∈ diff, startsWith (str "-") l = false) :
    ∀ s : DiffState, diff.foldl diffStep s = diff.foldl specDiffStep s := by
  induction diff with
  | nil => intro s; rfl
  | cons l t ih =>
    intro s
    have hl : startsWith (str "-") l = false := h l (List.mem_cons_self l t)
    have ht : ∀ x ∈ t, startsWith (str "-") x = false :=
      fun x hx => h x (List.mem_cons_of_mem l hx)
    simp only [List.foldl_cons, diffStep_eq_specDiffStep s l hl, ih ht]

/-- Unfolding `filterAux` on a line whose verdict is an error. -/
theorem filterAux_cons_error (cl : ChangedLines) (l : Line) (rest : List Line)
    (h : lineVerdict cl l = .error ()) :
    filterAux cl (l :: rest) = .error () := by
  simp [filterAux, h]

/-- Unfolding `filterAux` on a kept line. -/
theorem filterAux_cons_true (cl : ChangedLines) (l : Line) (rest : List Line)
    (h : lineVerdict cl l = .ok true) :
    filterAux cl (l :: rest) = (filterAux cl rest).map (fun out => l :: out) := by
  simp [filterAux, h]

/-- Unfolding `filterAux` on a dropped line. -/
theorem filterAux_cons_false (cl : ChangedLines) (l : Line) (rest : List Line)
    (h : lineVerdict cl l = .ok false) :
    filterAux cl (l :: rest) = filterAux cl rest := by
  simp [filterAux, h]

/-! ## Claims -/

/-- C1 (amended): for staged diffs in which no line begins with `-` (no
deletion lines), every line number that `get_changed_lines` records for a
file is the number of a line added (introduced) by that diff in the new
version of the file, as given by the spec's extraction semantics
`specAddedLines` — in fact the two computations agree entry for entry. -/
theorem c1_theorem (diff : List Line) (f : Line) (n : Nat)
    (hminus : ∀ l ∈ diff, startsWith (str "-") l = false)
    (hmem : n ∈ (clLookup (get_changed_lines diff) f).getD []) :
    n ∈ (clLookup (specAddedLines diff) f).getD [] := by
  have : get_changed_lines diff = specAddedLines diff := by
    unfold get_changed_lines specAddedLines
    rw [foldl_diffStep_eq_spec diff hminus]
  rwa [this] at hmem

/-- Witness for C1 at a concrete deletion-free diff: the hunk starting at
new-file line 1 adds lines 1 and 2, and line 1 is recorded and is an added
line of the new version. -/
theorem c1_witness :
    (∀ l ∈ [str "+++ b/src/a.py", str "@@ -0,0 +1,2 @@", str "+x", str "+y"],
        startsWith (str "-") l = false)
    ∧ 1 ∈ (clLookup (get_changed_lines
        [str "+++ b/src/a.py", str "@@ -0,0 +1,2 @@", str "+x", str "+y"])
        (str "src/a.py")).getD []
    ∧ 1 ∈ (clLookup (specAddedLines
        [str "+++ b/src/a.py", str "@@ -0,0 +1,2 @@", str "+x", str "+y"])
        (str "src/a.py")).getD [] :=
  ⟨by decide, by decide,
    c1_theorem [str "+++ b/src/a.py", str "@@ -0,0 +1,2 @@", str "+x", str "+y"]
      (str "src/a.py") 1 (by decide) (by decide)⟩

/-- C1 (counterexample): on the diff `+++ b/src/a.py`, `@@ -1,2 +1,2 @@`,
`-a`, `+b`, ` c`, the code records line 2 for `src/a.py`, but the new
version of the file is `b` (added, line 1) followed by `c` (context,
line 2): the deletion line advanced the new-file counter, so the recorded
number 2 points at a context line, not at an added line (which is exactly
line 1 per `specAddedLines`). -/
theorem c1_counterexample :
    2 ∈ (clLookup (get_changed_lines
      [str "+++ b/src/a.py", str "@@ -1,2 +1,2 @@", str "-a", str "+b", str " c"])
      (str "src/a.py")).getD []
    ∧ ¬ 2 ∈ (clLookup (specAddedLines
      [str "+++ b/src/a.py", str "@@ -1,2 +1,2 @@", str "-a", str "+b", str " c"])
      (str "src/a.py")).getD [] := by
  decide

/-- C6: an empty `ChangedLineSet` yields empty output for every log input,
and an empty log input yields empty output for every `ChangedLineSet`. -/
theorem c6_theorem :
    (∀ logs : List Line, filter_logs logs [] = .ok [])
    ∧ (∀ cl : ChangedLines, filter_logs [] cl = .ok []) := by
  constructor
  · intro logs; rfl
  · intro cl
    unfold filter_logs
    split <;> rfl

/-- Witness for C6 on concrete inputs. -/
theorem c6_witness :
    filter_logs [str "src/a.py:10: msg"] [] = .ok []
    ∧ filter_logs [] [(str "src/a.py", [10])] = .ok [] :=
  ⟨c6_theorem.1 [str "src/a.py:10: msg"], c6_theorem.2 [(str "src/a.py", [10])]⟩

/-- C8 (code behaviour at the failing input): for a staged diff adding a
new one-line file — whose hunk header git prints as `@@ -0,0 +1 @@`,
omitting the `,1` count — the header does not match the strict pattern
`@@ -<a>,<b> +<c>,<d> @@`, the line counter is never set, and the value 0
is recorded for `src/a.py`: not a positive line number. -/
theorem c8_eval :
    get_changed_lines [str "+++ b/src/a.py", str "@@ -0,0 +1 @@", str "+x"]
      = [(str "src/a.py", [0])]
    ∧ hunkNewStart (str "@@ -0,0 +1 @@") = none
    ∧ 0 ∈ (clLookup (get_changed_lines
        [str "+++ b/src/a.py", str "@@ -0,0 +1 @@", str "+x"])
        (str "src/a.py")).getD [] := by
  refine ⟨rfl, rfl, ?_⟩
  decide

/-- Every successful run of the filter loop returns a subsequence of its
input, in order. -/
theorem filterAux_sublist (cl : ChangedLines) :
    ∀ logs out : List Line, filterAux cl logs = .ok out → List.Sublist out logs := by
  intro logs
  induction logs with
  | nil =>
    intro out h
    simp only [filterAux] at h
    injection h with h
    rw [← h]
  | cons l rest ih =>
    intro out h
    cases hv : lineVerdict cl l with
    | error e =>
      cases e
      rw [filterAux_cons_error cl l rest hv] at h
      exact absurd h (by simp)
    | ok b =>
      cases b with
      | false =>
        rw [filterAux_cons_false cl l rest hv] at h
        exact List.Sublist.cons l (ih out h)
      | true =>
        rw [filterAux_cons_true cl l rest hv] at h
        cases hr : filterAux cl rest with
        | error e => rw [hr] at h; exact absurd h (by simp [Except.map])
        | ok out₀ =>
          rw [hr] at h
          simp only [Except.map] at h
          injection h with h
          rw [← h]
          exact List.Sublist.cons₂ l (ih out₀ hr)

/-- C5: whenever `filter_logs` returns a result (no exception), that result
is a subsequence of the input log lines in their original order — no
reordering, no additions or duplications, and each output line is the very
input line it came from. -/
theorem c5_theorem (logs : List Line) (cl : ChangedLines) (out : List Line)
    (h : filter_logs logs cl = .ok out) : List.Sublist out logs := by
  unfold filter_logs at h
  by_cases hcl : cl.isEmpty = true
  · rw [if_pos hcl] at h
    injection h with h
    rw [← h]
    exact List.nil_sublist logs
  · rw [if_neg hcl] at h
    exact filterAux_sublist cl logs out h

/-- Witness for C5 on a concrete run: the filter keeps the first of two
lines, and the result is a subsequence of the input. -/
theorem c5_witness :
    List.Sublist [str "src/a.py:10:5: unused import"]
      [str "src/a.py:10:5: unused import", str "src/a.py:99: other"] :=
  c5_theorem [str "src/a.py:10:5: unused import", str "src/a.py:99: other"]
    [(str "src/a.py", [10, 11])] [str "src/a.py:10:5: unused import"] (by rfl)

/-- Every line a successful filter run keeps has verdict "keep". -/
theorem filterAux_kept_verdict (cl : ChangedLines) :
    ∀ logs out : List Line, filterAux cl logs = .ok out →
      ∀ l ∈ out, lineVerdict cl l = .ok true := by
  intro logs
  induction logs with
  | nil =>
    intro out h
    simp only [filterAux] at h
    injection h with h
    rw [← h]
    intro l hl
    exact absurd hl (List.not_mem_nil l)
  | cons l rest ih =>
    intro out h
    cases hv : lineVerdict cl l with
    | error e =>
      cases e
      rw [filterAux_cons_error cl l rest hv] at h
      exact absurd h (by simp)
    | ok b =>
      cases b with
      | false =>
        rw [filterAux_cons_false cl l rest hv] at h
        exact ih out h
      | true =>
        rw [filterAux_cons_true cl l rest hv] at h
        cases hr : filterAux cl rest with
        | error e => rw [hr] at h; exact absurd h (by simp [Except.map])
        | ok out₀ =>
          rw [hr] at h
          simp only [Except.map] at h
          injection h with h
          rw [← h]
          intro x hx
          rcases List.mem_cons.mp hx with hx | hx
          · rw [hx]; exact hv
          · exact ih out₀ hr x hx

/-- A list all of whose lines have verdict "keep" is returned unchanged by
the filter loop. -/
theorem filterAux_of_kept (cl : ChangedLines) :
    ∀ out : List Line, (∀ l ∈ out, lineVerdict cl l = .ok true) →
      filterAux cl out = .ok out := by
  intro out
  induction out with
  | nil => intro _; rfl
  | cons l rest ih =>
    intro h
    have hv : lineVerdict cl l = .ok true := h l (List.mem_cons_self l rest)
    rw [filterAux_cons_true cl l rest hv,
      ih (fun x hx => h x (List.mem_cons_of_mem l hx))]
    rfl

/-- C7: the filter is deterministic (two runs on the same pair agree), and
idempotent: re-applying it to its own successful output with the same
`ChangedLineSet` returns that output unchanged. -/
theorem c7_theorem :
    (∀ (logs : List Line) (cl : ChangedLines), filter_logs logs cl = filter_logs logs cl)
    ∧ (∀ (logs : List Line) (cl : ChangedLines) (out : List Line),
        filter_logs logs cl = .ok out → filter_logs out cl = .ok out) := by
  constructor
  · intro logs cl; rfl
  · intro logs cl out h
    unfold filter_logs at h ⊢
    by_cases hcl : cl.isEmpty = true
    · rw [if_pos hcl] at h ⊢
      injection h with h
      rw [← h]
    · rw [if_neg hcl] at h ⊢
      exact filterAux_of_kept cl out (filterAux_kept_verdict cl logs out h)

/-- Witness for C7 on a concrete run: re-filtering the output of a run that
kept one line and dropped another returns the output unchanged. -/
theorem c7_witness :
    filter_logs [str "src/a.py:10:5: unused import"] [(str "src/a.py", [10, 11])]
      = .ok [str "src/a.py:10:5: unused import"] :=
  c7_theorem.2 [str "src/a.py:10:5: unused import", str "src/a.py:99: other"]
    [(str "src/a.py", [10, 11])] [str "src/a.py:10:5: unused import"] (by rfl)

/-- With a nonempty `ChangedLineSet` the filter does not short-circuit: it
runs the per-line loop. -/
theorem filter_logs_of_ne (logs : List Line) (cl : ChangedLines)
    (hcl : cl.isEmpty = false) : filter_logs logs cl = filterAux cl logs := by
  unfold filter_logs
  rw [hcl]
  simp

/-- C2: for a log line matching the structured pattern whose (stripped)
path contains `src/`, the filter keeps the line if and only if the path
truncated at the first `src/` occurrence is a key of the `ChangedLineSet`
and the parsed line number belongs to that key's set; concretely, with
lines 10 and 11 of `src/a.py` changed, `src/a.py:10:5: unused import` is
kept while `src/a.py:99: other` is excluded, and
`/home/user/project/src/a.py:10: msg` is kept. -/
theorem c2_theorem :
    (∀ (cl : ChangedLines) (l : Line) (rest : List Line) (p : Line) (n : Nat) (key : Line),
        cl.isEmpty = false →
        matchStructured l = some (p, n) →
        fromSrc (strip p) = some key →
        filter_logs (l :: rest) cl =
          (filter_logs rest cl).map
            (fun out =>
              if clHasKey cl key && ((clLookup cl key).getD []).contains n then l :: out
              else out))
    ∧ filter_logs [str "src/a.py:10:5: unused import", str "src/a.py:99: other"]
        [(str "src/a.py", [10, 11])] = .ok [str "src/a.py:10:5: unused import"]
    ∧ filter_logs [str "/home/user/project/src/a.py:10: msg"]
        [(str "src/a.py", [10, 11])] = .ok [str "/home/user/project/src/a.py:10: msg"] := by
  refine ⟨?_, rfl, rfl⟩
  intro cl l rest p n key hcl hm hsrc
  have hv : lineVerdict cl l
      = .ok (clHasKey cl key && ((clLookup cl key).getD []).contains n) := by
    simp only [lineVerdict, hm, hsrc]
  rw [filter_logs_of_ne (l :: rest) cl hcl, filter_logs_of_ne rest cl hcl]
  cases hb : clHasKey cl key && ((clLookup cl key).getD []).contains n with
  | false =>
    rw [hb] at hv
    rw [filterAux_cons_false cl l rest hv]
    simp [exceptMap_id]
  | true =>
    rw [hb] at hv
    rw [filterAux_cons_true cl l rest hv]
    simp

/-- Witness for C2's general clause at a concrete structured line. -/
theorem c2_witness :
    filter_logs [str "src/a.py:10:5: unused import"] [(str "src/a.py", [10, 11])]
      = (filter_logs [] [(str "src/a.py", [10, 11])]).map
          (fun out =>
            if clHasKey [(str "src/a.py", [10, 11])] (str "src/a.py")
                && ((clLookup [(str "src/a.py", [10, 11])] (str "src/a.py")).getD []).contains 10
            then str "src/a.py:10:5: unused import" :: out
            else out) :=
  c2_theorem.1 [(str "src/a.py", [10, 11])] (str "src/a.py:10:5: unused import") []
    (str "src/a.py") 10 (str "src/a.py") (by rfl) (by rfl) (by rfl)

/-- C3 (amended): a log line that matches the structured pattern but whose
stripped path does not contain the `src/` marker makes `filter_logs` raise
an uncaught `ValueError` (from `file_path.index("src/")`): the whole call
aborts with no output at all, rather than excluding the line and
continuing. -/
theorem c3_theorem (cl : ChangedLines) (l : Line) (rest : List Line) (p : Line) (n : Nat)
    (hcl : cl.isEmpty = false)
    (hm : matchStructured l = some (p, n))
    (hsrc : fromSrc (strip p) = none) :
    filter_logs (l :: rest) cl = .error () := by
  have hv : lineVerdict cl l = .error () := by
    simp only [lineVerdict, hm, hsrc]
  rw [filter_logs_of_ne (l :: rest) cl hcl]
  exact filterAux_cons_error cl l rest hv

/-- Witness for C3's amended statement at a concrete line without `src/`. -/
theorem c3_witness :
    filter_logs [str "lib/b.py:3: msg"] [(str "src/a.py", [10])] = .error () :=
  c3_theorem [(str "src/a.py", [10])] (str "lib/b.py:3: msg") [] (str "lib/b.py") 3
    (by rfl) (by rfl) (by rfl)

/-- C3 (counterexample): with `src/a.py` line 10 changed and the log
`lib/b.py:3: msg` followed by the keepable `src/a.py:10:5: x`, the claim
predicts the first line is dropped and the second kept; the code instead
raises on the first line, so the run aborts and nothing is returned. -/
theorem c3_counterexample :
    filter_logs [str "lib/b.py:3: msg", str "src/a.py:10:5: x"] [(str "src/a.py", [10])]
      = .error ()
    ∧ filter_logs [str "lib/b.py:3: msg", str "src/a.py:10:5: x"] [(str "src/a.py", [10])]
      ≠ .ok [str "src/a.py:10:5: x"] :=
  ⟨rfl, fun hcontra => Except.noConfusion hcontra⟩

/-- C4: a log line that does not match the structured pattern is kept if
and only if some key of the `ChangedLineSet` occurs as a literal substring
of the line; concretely `black: reformatted src/a.py` is kept when
`src/a.py` is a key. -/
theorem c4_theorem :
    (∀ (cl : ChangedLines) (l : Line) (rest : List Line),
        cl.isEmpty = false →
        matchStructured l = none →
        filter_logs (l :: rest) cl =
          (filter_logs rest cl).map
            (fun out =>
              if cl.any (fun kv => containsSub l kv.1) then l :: out else out))
    ∧ filter_logs [str "black: reformatted src/a.py"] [(str "src/a.py", [10, 11])]
        = .ok [str "black: reformatted src/a.py"] := by
  refine ⟨?_, rfl⟩
  intro cl l rest hcl hm
  have hv : lineVerdict cl l = .ok (cl.any (fun kv => containsSub l kv.1)) := by
    simp only [lineVerdict, hm]
  rw [filter_logs_of_ne (l :: rest) cl hcl, filter_logs_of_ne rest cl hcl]
  cases hb : cl.any (fun kv => containsSub l kv.1) with
  | false =>
    rw [hb] at hv
    rw [filterAux_cons_false cl l rest hv]
    simp [exceptMap_id]
  | true =>
    rw [hb] at hv
    rw [filterAux_cons_true cl l rest hv]
    simp

/-- Witness for C4's general clause at a concrete unstructured line. -/
theorem c4_witness :
    filter_logs [str "black: reformatted src/a.py"] [(str "src/a.py", [10, 11])]
      = (filter_logs [] [(str "src/a.py", [10, 11])]).map
          (fun out =>
            if List.any [(str "src/a.py", [10, 11])]
                (fun kv => containsSub (str "black: reformatted src/a.py") kv.1)
            then str "black: reformatted src/a.py" :: out
            else out) :=
  c4_theorem.1 [(str "src/a.py", [10, 11])] (str "black: reformatted src/a.py") []
    (by rfl) (by rfl)

/-- C9: an empty staged diff yields an empty `ChangedLineSet`, and whenever
the extractor's result is empty, `main` prints the informational message
and exits with status 0, producing no filtered log output — regardless of
the log file's presence or contents. -/
theorem c9_theorem :
    get_changed_lines [] = []
    ∧ (∀ (diff : List Line) (logFile : Option (List Line)),
        get_changed_lines diff = [] →
        main diff logFile = .infoExitZero
        ∧ (main diff logFile).exitCode = 0
        ∧ (main diff logFile).filteredOutput = none) := by
  refine ⟨rfl, ?_⟩
  intro diff lf h
  have hm : main diff lf = .infoExitZero := by
    unfold main
    rw [h]
    rfl
  exact ⟨hm, by rw [hm]; rfl, by rw [hm]; rfl⟩

/-- Witness for C9 at the empty diff with a missing log file. -/
theorem c9_witness :
    main [] none = .infoExitZero
    ∧ (main [] none).exitCode = 0
    ∧ (main [] none).filteredOutput = none :=
  c9_theorem.2 [] none rfl

/-- C10: a structured log line that fails the changed-line membership test
is excluded even when some `ChangedLineSet` key occurs in it as a literal
substring — the substring fallback is never consulted for lines that match
the structured pattern. -/
theorem c10_theorem (cl : ChangedLines) (l : Line) (rest : List Line) (p : Line)
    (n : Nat) (key : Line)
    (hcl : cl.isEmpty = false)
    (hm : matchStructured l = some (p, n))
    (hsrc : fromSrc (strip p) = some key)
    (hmiss : (clHasKey cl key && ((clLookup cl key).getD []).contains n) = false)
    (_hsub : cl.any (fun kv => containsSub l kv.1) = true) :
    filter_logs (l :: rest) cl = filter_logs rest cl := by
  have hv : lineVerdict cl l = .ok false := by
    simp only [lineVerdict, hm, hsrc, hmiss]
  rw [filter_logs_of_ne (l :: rest) cl hcl, filter_logs_of_ne rest cl hcl]
  exact filterAux_cons_false cl l rest hv

/-- Witness for C10: `src/a.py:99: x` contains the key `src/a.py` as a
substring but line 99 is not changed, so the line contributes nothing. -/
theorem c10_witness :
    filter_logs [str "src/a.py:99: x"] [(str "src/a.py", [10])]
      = filter_logs [] [(str "src/a.py", [10])] :=
  c10_theorem [(str "src/a.py", [10])] (str "src/a.py:99: x") [] (str "src/a.py") 99
    (str "src/a.py") (by rfl) (by rfl) (by rfl) (by rfl) (by rfl)

end FilterPrecommit
